import Mathlib

/-
Verification of the PvpMatchFHE coordination contract
(src/frontend/web/src/App.tsx, embedded Solidity part, lines 641-875).

Shallow embedding conventions:

* Machine integers (uint256 timestamps, batch ids, request ids) are Nat.
  Solidity 0.8 reverts on uint256 overflow, so plain Nat arithmetic agrees
  with the source on every execution that does not revert on overflow.
  The uint32 score parameter is reduced mod 2^32 at the ABI boundary.
* Encrypted values (euint32) are terms of an inductive type EUint32:
  the FHE co-processor derives each result handle deterministically from
  the operation and its input handles, so term structure is handle
  identity.  EUint32.uninit is the all-zero storage default, detected by
  isZero.  FHE.asEuint32 is a trivial encryption of a cleartext.
* toUint32 (used only in the MatchmakingCompleted emission) converts an
  encrypted value to its uint32 cleartext; it is modelled by the
  evaluation function decryptE.  The repository's own frontend
  (FHEDecryptNumber in App.tsx) decrypts the same way.
* keccak256(abi.encode(cts, address(this))) is modelled as an injective
  constructor HashVal.keccak (ideal hash); HashVal.zero is the bytes32(0)
  storage default, never a hash output.
* Solidity mappings are total functions with the zero-struct default,
  updated with Function.update.
* Every external function takes the caller (msg.sender) and, where the
  body reads block.timestamp, the current time as explicit arguments and
  returns Except Err (State × List Event): an error models revert, which
  rolls back every write, so a failing call by construction leaves the
  state unchanged and emits nothing.
* FHE.requestDecryption: the decryption oracle assigns request ids from a
  monotone counter (field nextRequestId), matching the FHEVM gateway and
  the uniqueness the interface guarantees; the contract treats the id as
  opaque.
* FHE.checkSignatures is an external verification capability, passed to
  the callback as an arbitrary function chk.
* abi.decode(cleartexts, (uint32)) is modelled as reduction mod 2^32 of
  the opaque byte blob (itself a Nat); the decoded value is never used
  afterwards, exactly as in the source.
-/

/- euint32 ciphertext handles (mutual with ebool), as produced by the
encrypted-arithmetic engine.  Handle derivation is deterministic, so a
handle is identified with the term that produced it. -/
mutual
inductive EUint32 where
  | uninit
  | asEuint32 (n : Nat)
  | sub (a b : EUint32)
  | select (c : EBool) (a b : EUint32)
deriving DecidableEq
inductive EBool where
  | ge (a b : EUint32)
deriving DecidableEq
end

/-- euint32.isZero(): true exactly on the all-zero storage default
(an uninitialized handle), as used by findMatch to detect a missing
submission. -/
def EUint32.isZero : EUint32 → Bool
  | .uninit => true
  | _ => false

mutual
/-- Cleartext of an encrypted value (uint32 semantics, wrap-around
subtraction).  euint32.toUint32() in the source is this evaluation. -/
def decryptE : EUint32 → Nat
  | .uninit => 0
  | .asEuint32 n => n % 4294967296
  | .sub a b => (decryptE a + (4294967296 - decryptE b)) % 4294967296
  | .select c a b => if evalEB c then decryptE a else decryptE b
/-- Cleartext of an encrypted boolean. -/
def evalEB : EBool → Bool
  | .ge a b => decide (decryptE b ≤ decryptE a)
end

/-- bytes32 export of a ciphertext handle (euint32.toBytes32()). -/
inductive Bytes32 where
  | handle (e : EUint32)
deriving DecidableEq

/-- bytes32 values stored in DecryptionContext.stateHash: either the
bytes32(0) storage default or a keccak256 digest of an encoded ciphertext
list together with the contract address.  keccak is modelled as an
injective constructor (ideal hash); a real digest is never the zero
word. -/
inductive HashVal where
  | zero
  | keccak (cts : List Bytes32) (addr : Nat)
deriving DecidableEq

/-- _hashCiphertexts: keccak256(abi.encode(cts, address(this))). -/
def hashCiphertexts (cts : List Bytes32) (addr : Nat) : HashVal :=
  .keccak cts addr

/-- struct PlayerSubmission. -/
structure PlayerSubmission where
  encryptedScore : EUint32
  submissionTimestamp : Nat
deriving DecidableEq

/-- Storage default of PlayerSubmission. -/
def PlayerSubmission.empty : PlayerSubmission := ⟨.uninit, 0⟩

/-- struct MatchRequest. -/
structure MatchRequest where
  player1 : Nat
  player2 : Nat
  encryptedScore1 : EUint32
  encryptedScore2 : EUint32
  requestTimestamp : Nat
deriving DecidableEq

/-- Storage default of MatchRequest. -/
def MatchRequest.empty : MatchRequest := ⟨0, 0, .uninit, .uninit, 0⟩

/-- struct DecryptionContext. -/
structure DecryptionContext where
  batchId : Nat
  stateHash : HashVal
  processed : Bool
deriving DecidableEq

/-- Storage default of DecryptionContext. -/
def DecryptionContext.empty : DecryptionContext := ⟨0, .zero, false⟩

/-- The contract's custom errors, named as the source declares them.
The natural-language spec uses its own labels for some of these:
PermissionDenied for NotOwner / NotProvider, SystemPaused for Paused,
BatchAlreadyOpen for the BatchNotOpen error raised by openBatch when the
batch is already open, BatchAlreadyClosed for the BatchClosed error
raised by closeBatch when it is already closed.  The spec's UnknownRequest
has no counterpart in the source. -/
inductive Err where
  | NotOwner
  | NotProvider
  | Paused
  | CooldownActive
  | BatchNotOpen
  | BatchClosed
  | InvalidCooldown
  | ReplayDetected
  | StateMismatch
  | InvalidProof
  | NotInitialized
  | InvalidSubmission
deriving DecidableEq

/-- The contract's events. -/
inductive Event where
  | ProviderAdded (provider : Nat)
  | ProviderRemoved (provider : Nat)
  | Paused (account : Nat)
  | Unpaused (account : Nat)
  | CooldownSet (oldCooldownSeconds newCooldownSeconds : Nat)
  | BatchOpened (batchId : Nat)
  | BatchClosed (batchId : Nat)
  | PlayerScoreSubmitted (player batchId : Nat) (encryptedScore : Bytes32)
  | MatchmakingRequested (requestId batchId : Nat) (stateHash : HashVal)
  | MatchmakingCompleted (requestId batchId player1 player2 score1 score2 : Nat)
deriving DecidableEq

/-- MIN_COOLDOWN_SECONDS. -/
def MIN_COOLDOWN_SECONDS : Nat := 10

/-- Contract storage, plus the contract's own address (address(this)),
the oracle's request-id counter, and the FHE library's initialization
flag. -/
structure State where
  self : Nat
  owner : Nat
  paused : Bool
  cooldownSeconds : Nat
  currentBatchId : Nat
  batchOpen : Bool
  isProvider : Nat → Bool
  lastSubmissionTimestamp : Nat → Nat
  lastRequestTimestamp : Nat → Nat
  batchSubmissions : Nat × Nat → PlayerSubmission
  matchRequests : Nat → MatchRequest
  decryptionContexts : Nat → DecryptionContext
  nextRequestId : Nat
  fheInitialized : Bool

/-- The constructor: owner = msg.sender, owner is a provider, all other
storage at its zero default. -/
def initState (self deployer : Nat) : State where
  self := self
  owner := deployer
  paused := false
  cooldownSeconds := 30
  currentBatchId := 0
  batchOpen := false
  isProvider := Function.update (fun _ => false) deployer true
  lastSubmissionTimestamp := fun _ => 0
  lastRequestTimestamp := fun _ => 0
  batchSubmissions := fun _ => PlayerSubmission.empty
  matchRequests := fun _ => MatchRequest.empty
  decryptionContexts := fun _ => DecryptionContext.empty
  nextRequestId := 0
  fheInitialized := false

/-- addProvider: onlyOwner; no pause check in the source. -/
def addProvider (caller provider : Nat) (s : State) :
    Except Err (State × List Event) :=
  if caller ≠ s.owner then .error .NotOwner
  else if s.isProvider provider = false then
    .ok ({ s with isProvider := Function.update s.isProvider provider true },
         [.ProviderAdded provider])
  else .ok (s, [])

/-- removeProvider: onlyOwner; no pause check in the source. -/
def removeProvider (caller provider : Nat) (s : State) :
    Except Err (State × List Event) :=
  if caller ≠ s.owner then .error .NotOwner
  else if s.isProvider provider = true then
    .ok ({ s with isProvider := Function.update s.isProvider provider false },
         [.ProviderRemoved provider])
  else .ok (s, [])

/-- pause: onlyOwner whenNotPaused. -/
def pause (caller : Nat) (s : State) : Except Err (State × List Event) :=
  if caller ≠ s.owner then .error .NotOwner
  else if s.paused = true then .error .Paused
  else .ok ({ s with paused := true }, [.Paused caller])

/-- unpause: onlyOwner, deliberately not pause-gated. -/
def unpause (caller : Nat) (s : State) : Except Err (State × List Event) :=
  if caller ≠ s.owner then .error .NotOwner
  else .ok ({ s with paused := false }, [.Unpaused caller])

/-- setCooldownSeconds: onlyOwner; rejects values below
MIN_COOLDOWN_SECONDS; no pause check in the source. -/
def setCooldownSeconds (caller n : Nat) (s : State) :
    Except Err (State × List Event) :=
  if caller ≠ s.owner then .error .NotOwner
  else if n < MIN_COOLDOWN_SECONDS then .error .InvalidCooldown
  else .ok ({ s with cooldownSeconds := n },
            [.CooldownSet s.cooldownSeconds n])

/-- openBatch: onlyOwner whenNotPaused; reverts BatchNotOpen when the
batch is already open (the source reuses this confusingly named error for
the already-open case); otherwise increments the id and opens. -/
def openBatch (caller : Nat) (s : State) : Except Err (State × List Event) :=
  if caller ≠ s.owner then .error .NotOwner
  else if s.paused = true then .error .Paused
  else if s.batchOpen = true then .error .BatchNotOpen
  else .ok ({ s with currentBatchId := s.currentBatchId + 1, batchOpen := true },
            [.BatchOpened (s.currentBatchId + 1)])

/-- closeBatch: onlyOwner whenNotPaused; reverts BatchClosed when already
closed; otherwise closes without changing the id. -/
def closeBatch (caller : Nat) (s : State) : Except Err (State × List Event) :=
  if caller ≠ s.owner then .error .NotOwner
  else if s.paused = true then .error .Paused
  else if s.batchOpen = false then .error .BatchClosed
  else .ok ({ s with batchOpen := false }, [.BatchClosed s.currentBatchId])

/-- submitPlayerScore: onlyProvider whenNotPaused
checkSubmissionCooldown(player); requires the batch open; trivially
encrypts the uint32 score, overwrites the submission for
(currentBatchId, player), stamps the timestamp, emits the exported
handle. -/
def submitPlayerScore (caller player score now : Nat) (s : State) :
    Except Err (State × List Event) :=
  if s.isProvider caller = false then .error .NotProvider
  else if s.paused = true then .error .Paused
  else if now < s.lastSubmissionTimestamp player + s.cooldownSeconds then
    .error .CooldownActive
  else if s.batchOpen = false then .error .BatchClosed
  else
    let encryptedScore : EUint32 := .asEuint32 (score % 4294967296)
    .ok ({ s with
            fheInitialized := true
            batchSubmissions :=
              Function.update s.batchSubmissions (s.currentBatchId, player)
                ⟨encryptedScore, now⟩
            lastSubmissionTimestamp :=
              Function.update s.lastSubmissionTimestamp player now },
         [.PlayerScoreSubmitted player s.currentBatchId (.handle encryptedScore)])

/-- findMatch: onlyProvider whenNotPaused checkRequestCooldown(player1).
Rejects equal players and missing submissions with InvalidSubmission;
note the source has no batch-open check here.  Derives the encrypted
absolute difference, hashes the exported ciphertext list together with
address(this), registers the decryption request under the oracle's fresh
id, captures the two score handles by value into the MatchRequest, and
stores an unprocessed DecryptionContext. -/
def findMatch (caller player1 player2 now : Nat) (s : State) :
    Except Err (State × List Event) :=
  if s.isProvider caller = false then .error .NotProvider
  else if s.paused = true then .error .Paused
  else if now < s.lastRequestTimestamp player1 + s.cooldownSeconds then
    .error .CooldownActive
  else if player1 = player2 then .error .InvalidSubmission
  else if ((s.batchSubmissions (s.currentBatchId, player1)).encryptedScore.isZero
        || (s.batchSubmissions (s.currentBatchId, player2)).encryptedScore.isZero) then
    .error .InvalidSubmission
  else
    let sub1 := s.batchSubmissions (s.currentBatchId, player1)
    let sub2 := s.batchSubmissions (s.currentBatchId, player2)
    let diff : EUint32 := .sub sub1.encryptedScore sub2.encryptedScore
    let absDiff : EUint32 :=
      .select (.ge diff (.asEuint32 0)) diff (.sub (.asEuint32 0) diff)
    let cts : List Bytes32 := [.handle absDiff]
    let stateHash := hashCiphertexts cts s.self
    let requestId := s.nextRequestId
    .ok ({ s with
            matchRequests :=
              Function.update s.matchRequests requestId
                ⟨player1, player2, sub1.encryptedScore, sub2.encryptedScore, now⟩
            decryptionContexts :=
              Function.update s.decryptionContexts requestId
                ⟨s.currentBatchId, stateHash, false⟩
            lastRequestTimestamp :=
              Function.update s.lastRequestTimestamp player1 now
            nextRequestId := s.nextRequestId + 1 },
         [.MatchmakingRequested requestId s.currentBatchId stateHash])

/-- myCallback: public, no role, ownership or pause check.  Rejects an
already-processed request with ReplayDetected; rebuilds the ciphertext
list in the exact order of the request from the stored MatchRequest
handles; compares the recomputed digest with the stored one
(StateMismatch on difference); asks the external verifier
(InvalidProof on rejection); decodes the cleartext, marks the context
processed, and emits MatchmakingCompleted carrying the two players'
scores converted to uint32 cleartext via toUint32. -/
def myCallback (chk : Nat → Nat → Nat → Bool)
    (caller requestId cleartexts proof : Nat) (s : State) :
    Except Err (State × List Event) :=
  if (s.decryptionContexts requestId).processed = true then .error .ReplayDetected
  else
    let mr := s.matchRequests requestId
    let cts : List Bytes32 :=
      [.handle (.select
          (.ge (.sub mr.encryptedScore1 mr.encryptedScore2) (.asEuint32 0))
          (.sub mr.encryptedScore1 mr.encryptedScore2)
          (.sub (.asEuint32 0) (.sub mr.encryptedScore1 mr.encryptedScore2)))]
    let currentHash := hashCiphertexts cts s.self
    if currentHash ≠ (s.decryptionContexts requestId).stateHash then
      .error .StateMismatch
    else if chk requestId cleartexts proof = false then .error .InvalidProof
    else
      let _scoreDiff := cleartexts % 4294967296
      .ok ({ s with
              decryptionContexts :=
                Function.update s.decryptionContexts requestId
                  { s.decryptionContexts requestId with processed := true } },
           [.MatchmakingCompleted requestId
              (s.decryptionContexts requestId).batchId
              mr.player1 mr.player2
              (decryptE mr.encryptedScore1) (decryptE mr.encryptedScore2)])

/-- The contract's external entry points, with their callers and, where
read, block.timestamp; the callback carries the external verifier it is
checked against. -/
inductive Op where
  | addProvider (caller provider : Nat)
  | removeProvider (caller provider : Nat)
  | pause (caller : Nat)
  | unpause (caller : Nat)
  | setCooldownSeconds (caller n : Nat)
  | openBatch (caller : Nat)
  | closeBatch (caller : Nat)
  | submitPlayerScore (caller player score now : Nat)
  | findMatch (caller player1 player2 now : Nat)
  | myCallback (chk : Nat → Nat → Nat → Bool) (caller requestId cleartexts proof : Nat)

/-- Dispatch an entry point. -/
def applyOp : Op → State → Except Err (State × List Event)
  | .addProvider c p => addProvider c p
  | .removeProvider c p => removeProvider c p
  | .pause c => pause c
  | .unpause c => unpause c
  | .setCooldownSeconds c n => setCooldownSeconds c n
  | .openBatch c => openBatch c
  | .closeBatch c => closeBatch c
  | .submitPlayerScore c p sc now => submitPlayerScore c p sc now
  | .findMatch c p1 p2 now => findMatch c p1 p2 now
  | .myCallback chk c r ct pf => myCallback chk c r ct pf

/-- State after an entry point: the new state on success, the old state
on revert. -/
def stepState (op : Op) (s : State) : State :=
  match applyOp op s with
  | .ok (s', _) => s'
  | .error _ => s

/-- Events emitted by an entry point (none on revert). -/
def stepEvents (op : Op) (s : State) : List Event :=
  match applyOp op s with
  | .ok (_, evs) => evs
  | .error _ => []

/-- One successful transaction. -/
def Step (s s' : State) : Prop :=
  ∃ op : Op, (applyOp op s).isOk = true ∧ s' = stepState op s

/-- Any finite sequence of successful transactions. -/
def Steps : State → State → Prop := Relation.ReflTransGen Step

/-- Request ids the oracle has not yet handed out have untouched
(zero-default) decryption contexts. -/
def FreshIdsClean (s : State) : Prop :=
  ∀ r, s.nextRequestId ≤ r → s.decryptionContexts r = DecryptionContext.empty

/-- The encrypted |score1 - score2| as derived by findMatch. -/
def requestAbsDiff (s1 s2 : EUint32) : EUint32 :=
  .select (.ge (.sub s1 s2) (.asEuint32 0)) (.sub s1 s2)
    (.sub (.asEuint32 0) (.sub s1 s2))

/-- The commitment over the ordered ciphertext list derived from the two
score handles, mixed with the contract address: the digest findMatch
stores and myCallback recomputes. -/
def requestStateHash (s1 s2 : EUint32) (self : Nat) : HashVal :=
  hashCiphertexts [.handle (requestAbsDiff s1 s2)] self

/-- The digest myCallback recomputes for a request id, from the stored
MatchRequest handles only. -/
def callbackHash (s : State) (r : Nat) : HashVal :=
  requestStateHash (s.matchRequests r).encryptedScore1
    (s.matchRequests r).encryptedScore2 s.self

/-- An external verifier that accepts everything (used in concrete
scenarios). -/
def chkTrue : Nat → Nat → Nat → Bool := fun _ _ _ => true

/-- Demo deployment: contract address 0, deployer (owner) 1. -/
def demo0 : State := initState 0 1

/-- Owner opens batch 1. -/
def demo1 : State := stepState (.openBatch 1) demo0

/-- Provider 1 submits score 1500 for player 2 at time 100. -/
def demo2 : State := stepState (.submitPlayerScore 1 2 1500 100) demo1

/-- Provider 1 submits score 1200 for player 3 at time 100. -/
def demo3 : State := stepState (.submitPlayerScore 1 3 1200 100) demo2

/-- Provider 1 requests match(2, 3) at time 100; the oracle assigns
request id 0. -/
def demo4 : State := stepState (.findMatch 1 2 3 100) demo3

/-- The oracle calls back for request 0 with cleartext blob 300 and an
accepted proof. -/
def demo5 : State := stepState (.myCallback chkTrue 9 0 300 0) demo4

/-- addProvider never touches the decryption contexts or the oracle
counter. -/
lemma ctx_addProvider (c p : Nat) (s : State) :
    (stepState (.addProvider c p) s).decryptionContexts = s.decryptionContexts ∧
    (stepState (.addProvider c p) s).nextRequestId = s.nextRequestId := by
  simp only [stepState, applyOp, addProvider]
  split_ifs <;> simp

/-- removeProvider never touches the decryption contexts or the oracle
counter. -/
lemma ctx_removeProvider (c p : Nat) (s : State) :
    (stepState (.removeProvider c p) s).decryptionContexts = s.decryptionContexts ∧
    (stepState (.removeProvider c p) s).nextRequestId = s.nextRequestId := by
  simp only [stepState, applyOp, removeProvider]
  split_ifs <;> simp

/-- pause never touches the decryption contexts or the oracle counter. -/
lemma ctx_pause (c : Nat) (s : State) :
    (stepState (.pause c) s).decryptionContexts = s.decryptionContexts ∧
    (stepState (.pause c) s).nextRequestId = s.nextRequestId := by
  simp only [stepState, applyOp, pause]
  split_ifs <;> simp

/-- unpause never touches the decryption contexts or the oracle counter. -/
lemma ctx_unpause (c : Nat) (s : State) :
    (stepState (.unpause c) s).decryptionContexts = s.decryptionContexts ∧
    (stepState (.unpause c) s).nextRequestId = s.nextRequestId := by
  simp only [stepState, applyOp, unpause]
  split_ifs <;> simp

/-- setCooldownSeconds never touches the decryption contexts or the
oracle counter. -/
lemma ctx_setCooldownSeconds (c n : Nat) (s : State) :
    (stepState (.setCooldownSeconds c n) s).decryptionContexts = s.decryptionContexts ∧
    (stepState (.setCooldownSeconds c n) s).nextRequestId = s.nextRequestId := by
  simp only [stepState, applyOp, setCooldownSeconds]
  split_ifs <;> simp

/-- openBatch never touches the decryption contexts or the oracle
counter. -/
lemma ctx_openBatch (c : Nat) (s : State) :
    (stepState (.openBatch c) s).decryptionContexts = s.decryptionContexts ∧
    (stepState (.openBatch c) s).nextRequestId = s.nextRequestId := by
  simp only [stepState, applyOp, openBatch]
  split_ifs <;> simp

/-- closeBatch never touches the decryption contexts or the oracle
counter. -/
lemma ctx_closeBatch (c : Nat) (s : State) :
    (stepState (.closeBatch c) s).decryptionContexts = s.decryptionContexts ∧
    (stepState (.closeBatch c) s).nextRequestId = s.nextRequestId := by
  simp only [stepState, applyOp, closeBatch]
  split_ifs <;> simp

/-- submitPlayerScore never touches the decryption contexts or the
oracle counter. -/
lemma ctx_submitPlayerScore (c p sc now : Nat) (s : State) :
    (stepState (.submitPlayerScore c p sc now) s).decryptionContexts = s.decryptionContexts ∧
    (stepState (.submitPlayerScore c p sc now) s).nextRequestId = s.nextRequestId := by
  simp only [stepState, applyOp, submitPlayerScore]
  split_ifs <;> simp

/-- findMatch either reverts or registers a fresh unprocessed context
under the oracle's next id and advances the counter. -/
lemma ctx_findMatch (c p1 p2 now : Nat) (s : State) :
    stepState (.findMatch c p1 p2 now) s = s ∨
    ((stepState (.findMatch c p1 p2 now) s).nextRequestId = s.nextRequestId + 1 ∧
     (stepState (.findMatch c p1 p2 now) s).decryptionContexts =
       Function.update s.decryptionContexts s.nextRequestId
         ⟨s.currentBatchId,
          requestStateHash
            (s.batchSubmissions (s.currentBatchId, p1)).encryptedScore
            (s.batchSubmissions (s.currentBatchId, p2)).encryptedScore s.self,
          false⟩) := by
  simp only [stepState, applyOp, findMatch]
  split_ifs <;> simp [requestStateHash, requestAbsDiff, hashCiphertexts]

/-- myCallback either reverts or (after its digest check passed, so the
stored digest equals the recomputation) marks exactly its own context
processed, leaving the counter alone. -/
lemma ctx_myCallback (chk : Nat → Nat → Nat → Bool) (c r ct pf : Nat) (s : State) :
    stepState (.myCallback chk c r ct pf) s = s ∨
    ((s.decryptionContexts r).stateHash = callbackHash s r ∧
     (stepState (.myCallback chk c r ct pf) s).nextRequestId = s.nextRequestId ∧
     (stepState (.myCallback chk c r ct pf) s).decryptionContexts =
       Function.update s.decryptionContexts r
         { s.decryptionContexts r with processed := true }) := by
  simp only [stepState, applyOp, myCallback]
  split_ifs with h1 h2 h3 <;>
    simp_all [callbackHash, requestStateHash, requestAbsDiff, hashCiphertexts]

/-- One successful transaction keeps untouched contexts at unissued ids
clean, and never clears a processed flag. -/
lemma step_preserves (s s' : State) (h : Step s s') (hf : FreshIdsClean s) :
    FreshIdsClean s' ∧
    ∀ r, (s.decryptionContexts r).processed = true →
      (s'.decryptionContexts r).processed = true := by
  obtain ⟨op, hok, rfl⟩ := h
  cases op with
  | addProvider c p =>
      obtain ⟨h1, h2⟩ := ctx_addProvider c p s
      exact ⟨fun r hr => by rw [h1]; exact hf r (h2 ▸ hr), fun r hr => h1 ▸ hr⟩
  | removeProvider c p =>
      obtain ⟨h1, h2⟩ := ctx_removeProvider c p s
      exact ⟨fun r hr => by rw [h1]; exact hf r (h2 ▸ hr), fun r hr => h1 ▸ hr⟩
  | pause c =>
      obtain ⟨h1, h2⟩ := ctx_pause c s
      exact ⟨fun r hr => by rw [h1]; exact hf r (h2 ▸ hr), fun r hr => h1 ▸ hr⟩
  | unpause c =>
      obtain ⟨h1, h2⟩ := ctx_unpause c s
      exact ⟨fun r hr => by rw [h1]; exact hf r (h2 ▸ hr), fun r hr => h1 ▸ hr⟩
  | setCooldownSeconds c n =>
      obtain ⟨h1, h2⟩ := ctx_setCooldownSeconds c n s
      exact ⟨fun r hr => by rw [h1]; exact hf r (h2 ▸ hr), fun r hr => h1 ▸ hr⟩
  | openBatch c =>
      obtain ⟨h1, h2⟩ := ctx_openBatch c s
      exact ⟨fun r hr => by rw [h1]; exact hf r (h2 ▸ hr), fun r hr => h1 ▸ hr⟩
  | closeBatch c =>
      obtain ⟨h1, h2⟩ := ctx_closeBatch c s
      exact ⟨fun r hr => by rw [h1]; exact hf r (h2 ▸ hr), fun r hr => h1 ▸ hr⟩
  | submitPlayerScore c p sc now =>
      obtain ⟨h1, h2⟩ := ctx_submitPlayerScore c p sc now s
      exact ⟨fun r hr => by rw [h1]; exact hf r (h2 ▸ hr), fun r hr => h1 ▸ hr⟩
  | findMatch c p1 p2 now =>
      rcases ctx_findMatch c p1 p2 now s with heq | ⟨h1, h2⟩
      · rw [heq]; exact ⟨hf, fun _ hr => hr⟩
      · constructor
        · intro r hr
          rw [h2, Function.update_apply]
          rw [h1] at hr
          have hne : r ≠ s.nextRequestId := by omega
          simp [hne]
          exact hf r (by omega)
        · intro r hr
          rw [h2, Function.update_apply]
          by_cases hc : r = s.nextRequestId
          · exfalso
            rw [hf r (le_of_eq hc.symm)] at hr
            simp [DecryptionContext.empty] at hr
          · simp [hc, hr]
  | myCallback chk c r0 ct pf =>
      rcases ctx_myCallback chk c r0 ct pf s with heq | ⟨hh, h1, h2⟩
      · rw [heq]; exact ⟨hf, fun _ hr => hr⟩
      · constructor
        · intro r hr
          rw [h2, Function.update_apply]
          by_cases hc : r = r0
          · exfalso
            subst hc
            rw [hf r (h1 ▸ hr)] at hh
            simp [DecryptionContext.empty, callbackHash, requestStateHash,
              hashCiphertexts] at hh
          · simp [hc]
            exact hf r (h1 ▸ hr)
        · intro r hr
          rw [h2, Function.update_apply]
          by_cases hc : r = r0 <;> simp [hc, hr]

/-- Clean unissued ids and sticky processed flags survive any sequence of
transactions. -/
lemma steps_preserves (s s' : State) (h : Steps s s') (hf : FreshIdsClean s) :
    FreshIdsClean s' ∧
    ∀ r, (s.decryptionContexts r).processed = true →
      (s'.decryptionContexts r).processed = true := by
  induction h with
  | refl => exact ⟨hf, fun _ hr => hr⟩
  | tail _ hstep ih =>
      obtain ⟨ihf, ihp⟩ := ih
      obtain ⟨hf', hp'⟩ := step_preserves _ _ hstep ihf
      exact ⟨hf', fun r hr => hp' r (ihp r hr)⟩

/-- A freshly deployed contract has every context clean. -/
lemma freshIdsClean_init (self dep : Nat) : FreshIdsClean (initState self dep) :=
  fun _ _ => rfl

/-- A processed context makes the callback revert ReplayDetected at once. -/
lemma myCallback_replay (chk : Nat → Nat → Nat → Bool) (c r ct pf : Nat)
    (s : State) (hp : (s.decryptionContexts r).processed = true) :
    myCallback chk c r ct pf s = .error .ReplayDetected := by
  simp [myCallback, hp]

/-- C1: with the owner (address 1) as provider, batch 1 open, scores 1500
(player 2) and 1200 (player 3) submitted and matched, the oracle callback
for request 0 emits a MatchmakingCompleted event that carries 1500 and
1200 — each player's raw uint32 cleartext score (toUint32 of the stored
handles), not the encrypted-score handles the specification prescribes;
the derived absolute gap (300) is decoded but not emitted at all. -/
theorem c1_completion_event_discloses_raw_scores :
    stepEvents (.myCallback chkTrue 9 0 300 0) demo4 =
      [.MatchmakingCompleted 0 1 2 3 1500 1200] ∧
    decryptE (demo4.matchRequests 0).encryptedScore1 = 1500 ∧
    decryptE (demo4.matchRequests 0).encryptedScore2 = 1200 := by
  decide

/-- C2 counterexample: in a freshly deployed contract no DecryptionContext
was ever stored for request id 0, yet the callback fails with
StateMismatch — the default zero digest never equals the recomputed
keccak digest — and not with any dedicated unknown-request error: the
contract declares no UnknownRequest error at all. -/
theorem c2_counterexample :
    myCallback chkTrue 9 0 300 0 demo0 = .error .StateMismatch := rfl

/-- C2 amended: a callback for a request id whose stored context is the
untouched zero default fails (reverting, hence leaving all state
unchanged), but with StateMismatch rather than UnknownRequest. -/
theorem c2_unknown_request_fails (chk : Nat → Nat → Nat → Bool)
    (c r ct pf : Nat) (s : State)
    (h : s.decryptionContexts r = DecryptionContext.empty) :
    myCallback chk c r ct pf s = .error .StateMismatch := by
  simp [myCallback, h, DecryptionContext.empty, hashCiphertexts]

/-- C2 witness: the amended statement at a concrete unknown id. -/
theorem c2_witness : myCallback chkTrue 4 7 300 0 demo0 = .error .StateMismatch :=
  c2_unknown_request_fails chkTrue 4 7 300 0 demo0 rfl

/-- The paused demo deployment. -/
def demoPaused : State := stepState (.pause 1) demo0

/-- C3 counterexample: while paused, addProvider and setCooldownSeconds
both succeed and mutate state (the source puts no pause check on them, nor
on removeProvider or myCallback), contradicting the claim that every
state-mutating operation except unpause fails while paused. -/
theorem c3_counterexample :
    demoPaused.paused = true ∧
    demoPaused.isProvider 5 = false ∧
    (applyOp (.addProvider 1 5) demoPaused).isOk = true ∧
    (stepState (.addProvider 1 5) demoPaused).isProvider 5 = true ∧
    (applyOp (.setCooldownSeconds 1 60) demoPaused).isOk = true ∧
    (stepState (.setCooldownSeconds 1 60) demoPaused).cooldownSeconds = 60 := by
  decide

/-- C3 amended: while paused, exactly the pause-gated operations — pause
itself, openBatch, closeBatch, submitPlayerScore and findMatch — fail
with Paused for an authorized caller (reverting, hence no state change),
while unpause still succeeds; provider management, cooldown changes and
the callback are not pause-gated. -/
theorem c3_pause_gates_some_operations (s : State)
    (hp : s.paused = true) (c p sc now p1 p2 : Nat) :
    (c = s.owner →
       pause c s = .error .Paused ∧
       openBatch c s = .error .Paused ∧
       closeBatch c s = .error .Paused ∧
       unpause c s = .ok ({ s with paused := false }, [.Unpaused c])) ∧
    (s.isProvider c = true →
       submitPlayerScore c p sc now s = .error .Paused ∧
       findMatch c p1 p2 now s = .error .Paused) := by
  constructor
  · intro hc
    refine ⟨?_, ?_, ?_, ?_⟩ <;> simp [pause, openBatch, closeBatch, unpause, hc, hp]
  · intro hc
    constructor <;> simp [submitPlayerScore, findMatch, hc, hp]

/-- C3 witness: the amended statement at the concrete paused state. -/
theorem c3_witness :
    openBatch 1 demoPaused = .error .Paused ∧
    submitPlayerScore 1 2 1500 100 demoPaused = .error .Paused := by
  have h := c3_pause_gates_some_operations demoPaused (by decide) 1 2 1500 100 2 3
  exact ⟨(h.1 rfl).2.1, (h.2 (by decide)).1⟩

/-- demo3 with the batch closed again; both submissions of batch 1 are
still in the ledger. -/
def demoClosed : State := stepState (.closeBatch 1) demo3

/-- C4 counterexample: findMatch succeeds although the current batch is
closed — the source checks the submissions but never batchOpen. -/
theorem c4_counterexample :
    demoClosed.batchOpen = false ∧
    (applyOp (.findMatch 1 2 3 100) demoClosed).isOk = true := by
  decide

/-- C4 amended: findMatch succeeds exactly when the caller is a provider,
the system is not paused, player1's request cooldown has elapsed, the
players differ, and both have a non-empty submission in the current
batch — with no batch-open requirement; equal players or a missing
submission fail with InvalidSubmission (reverting, hence no state
change). -/
theorem c4_findMatch_preconditions (s : State) (c p1 p2 now : Nat) :
    ((findMatch c p1 p2 now s).isOk = true ↔
      (s.isProvider c = true ∧ s.paused = false ∧
       s.lastRequestTimestamp p1 + s.cooldownSeconds ≤ now ∧
       p1 ≠ p2 ∧
       (s.batchSubmissions (s.currentBatchId, p1)).encryptedScore.isZero = false ∧
       (s.batchSubmissions (s.currentBatchId, p2)).encryptedScore.isZero = false)) ∧
    (s.isProvider c = true → s.paused = false →
     s.lastRequestTimestamp p1 + s.cooldownSeconds ≤ now →
     (p1 = p2 ∨
      (s.batchSubmissions (s.currentBatchId, p1)).encryptedScore.isZero = true ∨
      (s.batchSubmissions (s.currentBatchId, p2)).encryptedScore.isZero = true) →
     findMatch c p1 p2 now s = .error .InvalidSubmission) := by
  constructor
  · unfold findMatch
    split_ifs with h1 h2 h3 h4 h5
    · simp [Except.isOk, Except.toBool, h1]
    · simp [Except.isOk, Except.toBool, h1, h2]
    · have h3' : ¬ (s.lastRequestTimestamp p1 + s.cooldownSeconds ≤ now) := by omega
      simp [Except.isOk, Except.toBool, h3']
    · simp [Except.isOk, Except.toBool, h4]
    · rcases Bool.or_eq_true_iff.mp h5 with h | h <;> simp [Except.isOk, Except.toBool, h]
    · simp_all [Except.isOk, Except.toBool, Nat.not_lt]
  · intro hc hp hcd hbad
    unfold findMatch
    have h3' : ¬ (now < s.lastRequestTimestamp p1 + s.cooldownSeconds) := by omega
    rcases hbad with hbad | hbad | hbad
    · subst hbad
      simp [hc, hp, h3']
    · by_cases hpp : p1 = p2
      · subst hpp
        simp [hc, hp, h3', hbad]
      · simp [hc, hp, h3', hpp, hbad]
    · by_cases hpp : p1 = p2
      · subst hpp
        simp [hc, hp, h3', hbad]
      · simp [hc, hp, h3', hpp, hbad]

/-- C4 witness: requestMatch(A, A) fails with InvalidSubmission. -/
theorem c4_witness : findMatch 1 2 2 100 demo3 = .error .InvalidSubmission :=
  (c4_findMatch_preconditions demo3 1 2 2 100).2 (by decide) (by decide)
    (by decide) (Or.inl rfl)

/-- C5: in any state reachable from deployment, once a request's context
is processed it stays processed across any further sequence of
transactions, and every further callback for that request id fails with
ReplayDetected (reverting, hence leaving processed true and everything
else unchanged). -/
theorem c5_exactly_once_finalization (selfA dep : Nat) (s s' : State) (r : Nat)
    (hreach : Steps (initState selfA dep) s) (hsteps : Steps s s')
    (hp : (s.decryptionContexts r).processed = true) :
    (s'.decryptionContexts r).processed = true ∧
    ∀ chk c ct pf, myCallback chk c r ct pf s' = .error .ReplayDetected := by
  have hf : FreshIdsClean s :=
    (steps_preserves _ _ hreach (freshIdsClean_init selfA dep)).1
  have hp' : (s'.decryptionContexts r).processed = true :=
    (steps_preserves _ _ hsteps hf).2 r hp
  exact ⟨hp', fun chk c ct pf => myCallback_replay chk c r ct pf s' hp'⟩

/-- C5 witness: after the demo trace finalizes request 0, a duplicate
callback delivery fails with ReplayDetected. -/
theorem c5_witness :
    (demo5.decryptionContexts 0).processed = true ∧
    myCallback chkTrue 9 0 300 0 demo5 = .error .ReplayDetected := by
  have e1 : Step demo0 demo1 := ⟨.openBatch 1, by decide, rfl⟩
  have e2 : Step demo1 demo2 := ⟨.submitPlayerScore 1 2 1500 100, by decide, rfl⟩
  have e3 : Step demo2 demo3 := ⟨.submitPlayerScore 1 3 1200 100, by decide, rfl⟩
  have e4 : Step demo3 demo4 := ⟨.findMatch 1 2 3 100, by decide, rfl⟩
  have e5 : Step demo4 demo5 := ⟨.myCallback chkTrue 9 0 300 0, by decide, rfl⟩
  have htr : Steps demo0 demo5 :=
    Relation.ReflTransGen.head e1 (Relation.ReflTransGen.head e2
      (Relation.ReflTransGen.head e3 (Relation.ReflTransGen.head e4
        (Relation.ReflTransGen.single e5))))
  have h := c5_exactly_once_finalization 0 1 demo5 demo5 0 htr
    Relation.ReflTransGen.refl (by decide)
  exact ⟨h.1, h.2 chkTrue 9 300 0⟩

/-- C7: the batch registry is a two-state machine — openBatch succeeds
only from Closed, incrementing the id; closeBatch succeeds only from
Open, keeping the id; the wrong-state calls fail with the two distinct
errors the source raises there (spelled BatchNotOpen / BatchClosed in the
source, BatchAlreadyOpen / BatchAlreadyClosed in the specification) — and
no operation ever decreases the batch id, so ids are monotone and never
reused. -/
theorem c7_batch_state_machine (s : State) (c : Nat) :
    (c = s.owner → s.paused = false →
      ((s.batchOpen = false →
          openBatch c s =
            .ok ({ s with currentBatchId := s.currentBatchId + 1, batchOpen := true },
                 [.BatchOpened (s.currentBatchId + 1)])) ∧
       (s.batchOpen = true → openBatch c s = .error .BatchNotOpen) ∧
       (s.batchOpen = true →
          closeBatch c s =
            .ok ({ s with batchOpen := false }, [.BatchClosed s.currentBatchId])) ∧
       (s.batchOpen = false → closeBatch c s = .error .BatchClosed))) ∧
    (∀ (op : Op) (out : State × List Event),
       applyOp op s = .ok out → s.currentBatchId ≤ out.1.currentBatchId) := by
  constructor
  · intro hc hp
    refine ⟨fun hb => ?_, fun hb => ?_, fun hb => ?_, fun hb => ?_⟩ <;>
      simp [openBatch, closeBatch, hc, hp, hb]
  · intro op out hok
    cases op <;>
      simp only [applyOp, addProvider, removeProvider, pause, unpause,
        setCooldownSeconds, openBatch, closeBatch, submitPlayerScore,
        findMatch, myCallback] at hok <;>
      split_ifs at hok <;>
      (cases hok; simp)

/-- C7 witness: the state machine at the concrete deployment (closed) and
after opening batch 1. -/
theorem c7_witness :
    openBatch 1 demo0 =
      .ok ({ demo0 with currentBatchId := demo0.currentBatchId + 1, batchOpen := true },
           [.BatchOpened (demo0.currentBatchId + 1)]) ∧
    openBatch 1 demo1 = .error .BatchNotOpen ∧
    closeBatch 1 demo1 = .ok ({ demo1 with batchOpen := false },
           [.BatchClosed demo1.currentBatchId]) ∧
    closeBatch 1 demo0 = .error .BatchClosed :=
  ⟨((c7_batch_state_machine demo0 1).1 rfl rfl).1 rfl,
    ((c7_batch_state_machine demo1 1).1 rfl rfl).2.1 rfl,
    ((c7_batch_state_machine demo1 1).1 rfl rfl).2.2.1 rfl,
    ((c7_batch_state_machine demo0 1).1 rfl rfl).2.2.2 rfl⟩

/-- C10: the callback ignores msg.sender and the paused flag: for any two
callers and any setting of paused, the call succeeds or fails identically
(same error, same stored-context update, same event), the paused flag
merely being carried through unchanged. -/
theorem c10_callback_caller_and_pause_agnostic (chk : Nat → Nat → Nat → Bool)
    (c1 c2 r ct pf : Nat) (b : Bool) (s : State) :
    myCallback chk c1 r ct pf { s with paused := b } =
      Except.map (fun pr => ({ pr.1 with paused := b }, pr.2))
        (myCallback chk c2 r ct pf s) := by
  simp only [myCallback]
  split_ifs <;> rfl

/-- C6: a successful findMatch stores under the fresh request id the
commitment over the two captured score handles; the callback's
recomputation from those stored handles can then never fail the digest
check (stability); any substitution of either handle yields a different
digest (tamper detection, by injectivity of the ideal hash and of
deterministic handle derivation), so a callback over a substituted stored
request fails with StateMismatch; and in general an unprocessed context
whose stored digest differs from the recomputed one makes the callback
fail with StateMismatch. -/
theorem c6_commitment_binding (s : State) (c p1 p2 now : Nat)
    (out : State × List Event) (rid : Nat) (s1 s2 : EUint32)
    (hok : applyOp (.findMatch c p1 p2 now) s = .ok out)
    (hr : rid = s.nextRequestId)
    (h1 : s1 = (s.batchSubmissions (s.currentBatchId, p1)).encryptedScore)
    (h2 : s2 = (s.batchSubmissions (s.currentBatchId, p2)).encryptedScore) :
    ((out.1.decryptionContexts rid).stateHash = requestStateHash s1 s2 s.self) ∧
    ((out.1.matchRequests rid).encryptedScore1 = s1 ∧
     (out.1.matchRequests rid).encryptedScore2 = s2) ∧
    (∀ chk cb ct pf, myCallback chk cb rid ct pf out.1 ≠ .error .StateMismatch) ∧
    (∀ a b : EUint32, ¬(a = s1 ∧ b = s2) →
       requestStateHash a b s.self ≠ requestStateHash s1 s2 s.self) ∧
    (∀ (a b : EUint32) (t1 : Nat), ¬(a = s1 ∧ b = s2) →
       ∀ chk cb ct pf,
         myCallback chk cb rid ct pf
           { out.1 with
              matchRequests := Function.update out.1.matchRequests rid
                ⟨p1, p2, a, b, t1⟩ } = .error .StateMismatch) ∧
    (∀ (sx : State) (r : Nat), (sx.decryptionContexts r).processed = false →
       callbackHash sx r ≠ (sx.decryptionContexts r).stateHash →
       ∀ chk cb ct pf, myCallback chk cb r ct pf sx = .error .StateMismatch) := by
  subst hr h1 h2
  have hgen : ∀ (sx : State) (r : Nat), (sx.decryptionContexts r).processed = false →
      callbackHash sx r ≠ (sx.decryptionContexts r).stateHash →
      ∀ chk cb ct pf, myCallback chk cb r ct pf sx = .error .StateMismatch := by
    intro sx r hp hneq chk cb ct pf
    simp only [callbackHash, requestStateHash, requestAbsDiff, hashCiphertexts] at hneq
    simp [myCallback, hp, hashCiphertexts, hneq]
  have hinj : ∀ a b : EUint32,
      ¬(a = (s.batchSubmissions (s.currentBatchId, p1)).encryptedScore ∧
        b = (s.batchSubmissions (s.currentBatchId, p2)).encryptedScore) →
      requestStateHash a b s.self ≠
        requestStateHash (s.batchSubmissions (s.currentBatchId, p1)).encryptedScore
          (s.batchSubmissions (s.currentBatchId, p2)).encryptedScore s.self := by
    intro a b hab hEq
    apply hab
    simpa [requestStateHash, requestAbsDiff, hashCiphertexts, and_assoc] using hEq
  simp only [applyOp, findMatch] at hok
  split_ifs at hok <;> try simp at hok
  subst hok
  refine ⟨?_, ⟨?_, ?_⟩, ?_, hinj, ?_, hgen⟩
  · simp [requestStateHash, requestAbsDiff, hashCiphertexts]
  · simp
  · simp
  · intro chk cb ct pf
    simp only [myCallback, Function.update_same]
    split_ifs <;> simp_all
  · intro a b t1 hab chk cb ct pf
    have hne := hinj a b hab
    simp only [requestStateHash, requestAbsDiff, hashCiphertexts] at hne
    simp [myCallback, hashCiphertexts, hne]

/-- Events of the demo findMatch transaction. -/
def demo4ev : List Event := stepEvents (.findMatch 1 2 3 100) demo3

/-- C6 witness: the stability conclusion at the concrete request — the
callback for the untampered demo request never fails the digest check. -/
theorem c6_witness : myCallback chkTrue 9 0 300 0 demo4 ≠ .error Err.StateMismatch :=
  (c6_commitment_binding demo3 1 2 3 100 (demo4, demo4ev) 0
    (.asEuint32 1500) (.asEuint32 1200) rfl rfl (by decide) (by decide)).2.2.1
    chkTrue 9 300 0

/-- C8: a successful submitPlayerScore after a pending request leaves the
stored MatchRequests, DecryptionContexts and contract address untouched,
hence the callback's recomputed digest for every request id is unchanged,
and the callback behaves identically before and after the ledger write
(same error or same context update and event), the rewritten ledger
fields merely being carried through. -/
theorem c8_request_insulated_from_ledger (s : State) (c p sc now : Nat)
    (out : State × List Event)
    (hok : submitPlayerScore c p sc now s = .ok out) :
    out.1.matchRequests = s.matchRequests ∧
    out.1.decryptionContexts = s.decryptionContexts ∧
    out.1.self = s.self ∧
    (∀ r, callbackHash out.1 r = callbackHash s r) ∧
    (∀ (chk : Nat → Nat → Nat → Bool) (cb r ct pf : Nat),
       myCallback chk cb r ct pf out.1 =
         Except.map
           (fun pr => ({ out.1 with decryptionContexts := pr.1.decryptionContexts }, pr.2))
           (myCallback chk cb r ct pf s)) := by
  unfold submitPlayerScore at hok
  split_ifs at hok <;> try simp at hok
  subst hok
  refine ⟨rfl, rfl, rfl, fun r => rfl, ?_⟩
  intro chk cb r ct pf
  simp only [myCallback]
  split_ifs <;> rfl

/-- Player 2's score overwritten in the ledger (777 at time 200) while
request 0 is pending. -/
def demoResub : State := stepState (.submitPlayerScore 1 2 777 200) demo4

/-- Events of the overwriting submission. -/
def demoResubEv : List Event := stepEvents (.submitPlayerScore 1 2 777 200) demo4

/-- C8 witness: overwriting player 2's submission while request 0 is
pending changes neither the stored requests nor the contexts. -/
theorem c8_witness :
    demoResub.matchRequests = demo4.matchRequests ∧
    demoResub.decryptionContexts = demo4.decryptionContexts :=
  ⟨(c8_request_insulated_from_ledger demo4 1 2 777 200 (demoResub, demoResubEv) rfl).1,
   (c8_request_insulated_from_ledger demo4 1 2 777 200 (demoResub, demoResubEv) rfl).2.1⟩

/-- C9: for a provider caller while unpaused, a submission fails with
CooldownActive exactly when now is within cooldownSeconds of the player's
last submission timestamp (and a pairing request exactly when within
cooldownSeconds of player1's last request timestamp); rejection reverts,
so nothing changes; a successful submission stamps the player's timestamp
to now, after which a second submission for the same player fails with
CooldownActive strictly before now + cooldownSeconds and succeeds from
now + cooldownSeconds on; a successful request stamps player1's request
timestamp. -/
theorem c9_cooldown_guard (s : State) (c p sc now p2 : Nat)
    (hprov : s.isProvider c = true) (hpause : s.paused = false) :
    ((submitPlayerScore c p sc now s = .error .CooldownActive) ↔
       now < s.lastSubmissionTimestamp p + s.cooldownSeconds) ∧
    ((findMatch c p p2 now s = .error .CooldownActive) ↔
       now < s.lastRequestTimestamp p + s.cooldownSeconds) ∧
    (∀ out : State × List Event, submitPlayerScore c p sc now s = .ok out →
       out.1.lastSubmissionTimestamp p = now ∧
       (∀ c2 sc2 now2, out.1.isProvider c2 = true →
          now2 < now + out.1.cooldownSeconds →
          submitPlayerScore c2 p sc2 now2 out.1 = .error .CooldownActive) ∧
       (∀ c2 sc2 now2, out.1.isProvider c2 = true →
          now + out.1.cooldownSeconds ≤ now2 →
          (submitPlayerScore c2 p sc2 now2 out.1).isOk = true)) ∧
    (∀ out : State × List Event, findMatch c p p2 now s = .ok out →
       out.1.lastRequestTimestamp p = now) := by
  refine ⟨?_, ?_, ?_, ?_⟩
  · unfold submitPlayerScore
    split_ifs with h1 h2 h3 h4 <;> simp_all
  · unfold findMatch
    split_ifs with h1 h2 h3 h4 h5 <;> simp_all
  · intro out hok
    unfold submitPlayerScore at hok
    split_ifs at hok with h1 h2 h3 h4 <;> try simp at hok
    subst hok
    refine ⟨by simp, ?_, ?_⟩
    · intro c2 sc2 now2 hc2 hlt
      simp only at hc2 hlt ⊢
      unfold submitPlayerScore
      simp_all
    · intro c2 sc2 now2 hc2 hle
      simp only at hc2 hle ⊢
      unfold submitPlayerScore
      have hnot : ¬ (now2 < now + s.cooldownSeconds) := by omega
      simp only [hc2, hpause, Function.update_same]
      rw [if_neg (by simp [hc2]), if_neg (by simp), if_neg hnot,
        if_neg (by simp [h4])]
      rfl
  · intro out hok
    unfold findMatch at hok
    split_ifs at hok <;> try simp at hok
    subst hok
    simp

/-- Events of the demo submission for player 2. -/
def demo2ev : List Event := stepEvents (.submitPlayerScore 1 2 1500 100) demo1

/-- C9 witness: after player 2's successful submission at time 100 with a
30-second cooldown, a resubmission at 120 fails with CooldownActive and a
resubmission at 130 succeeds. -/
theorem c9_witness :
    submitPlayerScore 1 2 55 120 demo2 = .error Err.CooldownActive ∧
    (submitPlayerScore 1 2 55 130 demo2).isOk = true := by
  have h := (c9_cooldown_guard demo1 1 2 1500 100 3 (by decide) (by decide)).2.2.1
    (demo2, demo2ev) rfl
  exact ⟨h.2.1 1 55 120 (by decide) (by decide), h.2.2 1 55 130 (by decide) (by decide)⟩
